import Mathlib

/-!
Shallow embedding of `audio_duration_node.py` (ComfyUI audio-duration custom node).

The repository defines two duration handlers:
 * `GetAudioDuration.get_duration(audio_file)` — decode a file path through the
   backend cascade torchaudio → librosa → soundfile, each failure caught and the
   next backend tried; all failures at the outer boundary become `(0, "错误: <msg>")`.
 * `GetAudioDurationFromAudio.get_duration(audio)` — heuristic structural
   resolution of an in-memory audio value (nested dicts / tuples / tensors).

Python values relevant to the handlers are embedded as `PyVal`; only the shape
of a tensor / ndarray matters (the handlers read `size(-1)` / `shape[-1]` /
`len`), so buffers carry their shape only.  Machine floats do not appear: every
duration in the source is `int(sampleCount / rate)` on integral operands, which
is exact truncated division, embedded as `Int.tdiv`.  The decode backends are
abstracted as an environment (`Backends`): each decode either fails (a caught
library exception) or yields a sample count and a sample rate.
-/

/-- Python values handled by `GetAudioDurationFromAudio.get_duration`.
A `torch.Tensor` / `numpy.ndarray` is represented by its shape (list of
dimension sizes); `dict` is an insertion-ordered association list with string
keys (as produced by upstream ComfyUI nodes); `pylist` is a plain Python list. -/
inductive PyVal where
  | tensor (shape : List Nat)
  | ndarray (shape : List Nat)
  | int (n : Int)
  | str (s : String)
  | dict (entries : List (String × PyVal))
  | tuple (elems : List PyVal)
  | pylist (elems : List PyVal)

/-- Python dict key lookup (`audio[k]`); first entry with the key wins. -/
def lookup : List (String × PyVal) → String → Option PyVal
  | [], _ => none
  | (k2, v) :: rest, k => if k2 = k then some v else lookup rest k

/-- The prefix `"错误: "` that both handlers prepend to a caught exception message
(line 76 / line 212 of the source). -/
def errHead : String := "错误: "

/-- The success text `f"{d} 秒"` both handlers build (e.g. line 49). -/
def fmtSec (d : Int) : String := toString d ++ " 秒"

/-- Last dimension of a buffer, as read by `samples.size(-1)` / `samples.shape[-1]`;
raises (IndexError) on a 0-dimensional buffer. -/
def lastDim (s : List Nat) : Except String Nat :=
  match s.getLast? with
  | some n => .ok n
  | none => .error "dimension out of range"

/-- Python `int(n / v)` where `n` is a sample count and `v` a dict value used as
sample rate: exact for integral operands, truncating toward zero; raises
ZeroDivisionError on rate 0 and TypeError on a non-numeric rate. -/
def pyIntDiv (n : Nat) (v : PyVal) : Except String Int :=
  match v with
  | .int r => if r = 0 then .error "division by zero" else .ok (Int.tdiv (Int.ofNat n) r)
  | _ => .error "unsupported operand type for division"

/-- Computation `duration_seconds = int(buffer.size(-1) / rate)` plus the `f"{d} 秒"` text,
as computed by the tensor/ndarray branches of the dict strategies. -/
def bufDur (s : List Nat) (rate : PyVal) : Except String (Int × String) :=
  match lastDim s with
  | .error m => .error m
  | .ok n =>
    match pyIntDiv n rate with
    | .error m => .error m
    | .ok d => .ok (d, fmtSec d)

/-- The decode backends and the filesystem, abstracted.  A backend call either
fails (its exception is caught by the per-backend `except` and the cascade
continues) or returns `(sampleCount, sampleRate)`.  `librosaLoad = none` /
`sfRead = none` model the library being absent (the `ImportError` fallbacks at
the top of the source); torchaudio is imported unconditionally. -/
structure Backends where
  fileExists : String → Bool
  torchLoad : String → Except String (Nat × Int)
  librosaLoad : Option (String → Except String (Nat × Int))
  sfRead : Option (String → Except String (Nat × Int))

/-- One backend attempt inside `GetAudioDuration.get_duration`: a failed load is
caught (`except Exception`) and yields nothing; a successful load computes
`int(sampleCount / rate)` — a rate of 0 raises ZeroDivisionError *inside* the
try block of that same backend, which is equally caught, so the cascade continues. -/
def tryLoadResult (r : Except String (Nat × Int)) : Option (Int × String) :=
  match r with
  | .error _ => none
  | .ok (n, rate) =>
    if rate = 0 then none
    else some (Int.tdiv (Int.ofNat n) rate, fmtSec (Int.tdiv (Int.ofNat n) rate))

/-- The soundfile step (lines 63–69): skipped when the library is absent;
if it fails too, `ValueError(f"无法加载音频文件: {audio_file}")` is raised. -/
def sfStep (env : Backends) (p : String) : Except String (Int × String) :=
  match env.sfRead with
  | some g =>
    match tryLoadResult (g p) with
    | some r => .ok r
    | none => .error ("无法加载音频文件: " ++ p)
  | none => .error ("无法加载音频文件: " ++ p)

/-- The librosa step (lines 54–60): skipped when the library is absent,
falling through to soundfile. -/
def librosaStep (env : Backends) (p : String) : Except String (Int × String) :=
  match env.librosaLoad with
  | some f =>
    match tryLoadResult (f p) with
    | some r => .ok r
    | none => sfStep env p
  | none => sfStep env p

/-- Body of the outer `try` of `GetAudioDuration.get_duration` (lines 40–72):
existence check, then the torchaudio → librosa → soundfile cascade. -/
def getDurationCore (env : Backends) (p : String) : Except String (Int × String) :=
  if env.fileExists p then
    match tryLoadResult (env.torchLoad p) with
    | some r => .ok r
    | none => librosaStep env p
  else .error ("文件不存在: " ++ p)

/-- Handler `GetAudioDuration.get_duration`: the outer `except Exception` (lines 74–76)
converts every escaped exception into `(0, "错误: " + str(e))`. -/
def getDuration (env : Backends) (p : String) : Int × String :=
  match getDurationCore env p with
  | .ok r => r
  | .error m => (0, errHead ++ m)

/-- Strategy 1 (lines 103–112): `if "samples" in audio and "sample_rate" in
audio`, duration computed only when the samples value is a `torch.Tensor` or
`numpy.ndarray`; any other type falls through (no `else`) to the next check. -/
def strat1 (es : List (String × PyVal)) : Option (Except String (Int × String)) :=
  match lookup es "samples", lookup es "sample_rate" with
  | some samples, some rate =>
    match samples with
    | .tensor s => some (bufDur s rate)
    | .ndarray s => some (bufDur s rate)
    | _ => none
  | _, _ => none

/-- Inner `for data_key in ["data", "samples", "audio", "waveform"]` loop of the
rate-key branch of strategy 4 (lines 129–137): a present data key whose value is
not a Tensor/ndarray is passed over and the loop continues. -/
def strat4Data (es : List (String × PyVal)) (rate : PyVal) :
    List String → Option (Except String (Int × String))
  | [] => none
  | dk :: dks =>
    match lookup es dk with
    | some (.tensor s) => some (bufDur s rate)
    | some (.ndarray s) => some (bufDur s rate)
    | _ => strat4Data es rate dks

/-- Inner `for rate_key in ["samplerate", "rate", "sr", "sample_rate"]` loop of
the data-key branch of strategy 4 (lines 141–149). -/
def strat4Rate (es : List (String × PyVal)) (data : PyVal) :
    List String → Option (Except String (Int × String))
  | [] => none
  | rk :: rks =>
    match lookup es rk with
    | some rate =>
      match data with
      | .tensor s => some (bufDur s rate)
      | .ndarray s => some (bufDur s rate)
      | _ => strat4Rate es data rks
    | none => strat4Rate es data rks

/-- Outer `for key in possible_keys` loop of strategy 4 (lines 123–149):
`possible_keys = ["samplerate", "rate", "sr", "audio_data", "waveform"]`; the
first three are treated as rate keys, the last two as data keys. -/
def strat4Outer (es : List (String × PyVal)) :
    List String → Option (Except String (Int × String))
  | [] => none
  | k :: ks =>
    if k = "samplerate" ∨ k = "rate" ∨ k = "sr" then
      match lookup es k with
      | some rate =>
        match strat4Data es rate ["data", "samples", "audio", "waveform"] with
        | some r => some r
        | none => strat4Outer es ks
      | none => strat4Outer es ks
    else if k = "audio_data" ∨ k = "waveform" then
      match lookup es k with
      | some data =>
        match strat4Rate es data ["samplerate", "rate", "sr", "sample_rate"] with
        | some r => some r
        | none => strat4Outer es ks
      | none => strat4Outer es ks
    else strat4Outer es ks

/-- Strategy 4 as run by the source, over its fixed `possible_keys` list. -/
def strat4 (es : List (String × PyVal)) : Option (Except String (Int × String)) :=
  strat4Outer es ["samplerate", "rate", "sr", "audio_data", "waveform"]

/-- Simplified rendering of Python `type(x)` for the diagnostic message of
line 208 (the real text is of the form class tags; only the fact that the
message names the type matters to the spec). -/
def pyType : PyVal → String
  | .tensor _ => "Tensor"
  | .ndarray _ => "ndarray"
  | .int _ => "int"
  | .str _ => "str"
  | .dict _ => "dict"
  | .tuple _ => "tuple"
  | .pylist _ => "list"

/-- Simplified rendering of Python `str(x)`, used (truncated to 50 characters)
in the line-208 diagnostic for non-dict values. -/
def pyStr : PyVal → String
  | .tensor _ => "tensor"
  | .ndarray _ => "array"
  | .int n => toString n
  | .str s => s
  | .dict _ => "dict"
  | .tuple _ => "tuple"
  | .pylist _ => "list"

/-- Rendering of `list(audio.keys())` for the line-208 diagnostic. -/
def pyKeys (es : List (String × PyVal)) : String :=
  "[" ++ String.intercalate ", " (es.map Prod.fst) ++ "]"

/-- Message of the final `ValueError` (line 208): names the type of the unresolved
value and, for a dict, its key set, otherwise its `str()` (the source truncates
the latter to 50 characters; the renderings of this model are all shorter, so
the truncation is omitted). -/
def unparseable (a : PyVal) : String :=
  match a with
  | .dict es => "无法解析音频格式: " ++ pyType a ++ ", 内容: " ++ pyKeys es
  | _ => "无法解析音频格式: " ++ pyType a ++ ", 内容: " ++ pyStr a

/-- Python `key in audio` as used by the fallback rate scan (line 193), where
`audio` may not be a dict: on a `torch.Tensor` this *raises* RuntimeError
(`Tensor.__contains__` only supports Tensor or scalar arguments); on a
`numpy.ndarray` the elementwise string comparison collapses to `False`; on a
list/tuple it is membership; on an int it raises TypeError. -/
def hasKey : PyVal → String → Except String Bool
  | .dict es, k => .ok (lookup es k).isSome
  | .tensor _, _ => .error "Tensor membership only supports Tensor or scalar"
  | .ndarray _, _ => .ok false
  | .pylist es, k => .ok (es.any fun v => match v with | .str s => s = k | _ => false)
  | .tuple es, k => .ok (es.any fun v => match v with | .str s => s = k | _ => false)
  | .str s, k => .ok ((s.splitOn k).length ≠ 1)
  | .int _, _ => .error "argument of type int is not iterable"

/-- Python `audio[key]` for the value found by the fallback rate scan. -/
def getItem : PyVal → String → Except String PyVal
  | .dict es, k =>
    match lookup es k with
    | some v => .ok v
    | none => .error "KeyError"
  | _, _ => .error "object is not subscriptable"

/-- Fallback rate scan (lines 191–195): default 44100, replaced by the first
present key of `["sample_rate", "samplerate", "rate", "sr"]`; a raising
membership test (e.g. on a Tensor) propagates. -/
def findRate (a : PyVal) : List String → Except String PyVal
  | [] => .ok (.int 44100)
  | k :: ks =>
    match hasKey a k with
    | .error m => .error m
    | .ok true => getItem a k
    | .ok false => findRate a ks

/-- First Tensor/ndarray value of the dict (lines 180–186), used when the
top-level value is neither a Tensor nor array-like. -/
def firstArray : List (String × PyVal) → Option (List Nat)
  | [] => none
  | (_, .tensor s) :: _ => some s
  | (_, .ndarray s) :: _ => some s
  | _ :: rest => firstArray rest

/-- Lines 174–188: coerce the value to a numpy array (here: obtain its shape).
A Tensor or ndarray converts directly; for any other non-dict value
`audio.items()` raises AttributeError; a dict without a Tensor/ndarray value
raises `ValueError("无法将音频转换为 numpy 数组")`. -/
def toArrayShape : PyVal → Except String (List Nat)
  | .tensor s => .ok s
  | .ndarray s => .ok s
  | .dict es =>
    match firstArray es with
    | some s => .ok s
    | none => .error "无法将音频转换为 numpy 数组"
  | _ => .error "object has no attribute items"

/-- Lines 198–200: `if audio_np.ndim > 1: audio_np = audio_np[0]` — collapse a
multi-dimensional buffer to its first channel; indexing raises IndexError when
the leading dimension is 0. -/
def collapse (s : List Nat) : Except String (List Nat) :=
  if 1 < s.length then
    match s with
    | 0 :: _ => .error "index 0 is out of bounds"
    | _ :: t => .ok t
    | [] => .ok []
  else .ok s

/-- Body of the inner `try` of the librosa fallback (lines 172–203):
coerce to an array, find a rate (default 44100), collapse channels, and compute
`int(librosa.get_duration(y, sr)) = int(y.shape[-1] / sr)`. -/
def genericEstimate (a : PyVal) : Except String (Int × String) :=
  match toArrayShape a with
  | .error m => .error m
  | .ok s =>
    match findRate a ["sample_rate", "samplerate", "rate", "sr"] with
    | .error m => .error m
    | .ok rate =>
      match collapse s with
      | .error m => .error m
      | .ok s2 =>
        match lastDim s2 with
        | .error m => .error m
        | .ok n =>
          match pyIntDiv n rate with
          | .error m => .error m
          | .ok d => .ok (d, fmtSec d)

/-- Lines 170–208: the librosa fallback (skipped when librosa is absent), whose
exceptions are caught by its own `except` (line 204), followed by the final
`raise ValueError` (line 208) which the outer handler turns into the error
tuple. -/
def finalFallback (env : Backends) (a : PyVal) : Except String (Int × String) :=
  if env.librosaLoad.isSome then
    match genericEstimate a with
    | .ok r => .ok r
    | .error _ => .error (unparseable a)
  else .error (unparseable a)

/-- A value found by dict lookup is structurally smaller than the entry list
(termination measure for the recursive handler). -/
theorem lookup_sizeOf_lt :
    ∀ (es : List (String × PyVal)) (k : String) (v : PyVal),
      lookup es k = some v → sizeOf v < sizeOf es := by
  intro es
  induction es with
  | nil => intro k v h; simp [lookup] at h
  | cons kv rest ih =>
    intro k v h
    obtain ⟨k2, v2⟩ := kv
    simp only [lookup] at h
    by_cases hk : k2 = k
    · simp [hk] at h
      subst h
      simp
      omega
    · simp [hk] at h
      have := ih k v h
      simp
      omega

mutual

/-- Handler `GetAudioDurationFromAudio.get_duration` (lines 94–212): the outer
`except Exception` converts every exception escaping the strategy cascade into
`(0, "错误: " + str(e))`.  Recursive calls in the source (`self.get_duration`)
go through this same boundary, so a nested failure surfaces as an error tuple,
not as an exception. -/
def getDurationFromAudio (env : Backends) (a : PyVal) : Int × String :=
  match fromAudioCore env a with
  | .ok r => r
  | .error m => (0, errHead ++ m)
termination_by (sizeOf a, 3)
decreasing_by
  simp_wf
  apply Prod.Lex.right
  omega

/-- Body of the outer `try`: the dict strategies run only for a dict
(line 101); every other value goes straight to the librosa fallback /
final `raise`. -/
def fromAudioCore (env : Backends) (a : PyVal) : Except String (Int × String) :=
  match a with
  | .dict es =>
    match strat1 es with
    | some r => r
    | none => dictAfter1 env es
  | _ => finalFallback env a
termination_by (sizeOf a, 2)
decreasing_by
  simp_wf
  apply Prod.Lex.left
  omega

/-- The dict cascade after strategy 1: nested `audio` recursion (line 115),
`filename` delegation to `GetAudioDuration` (line 119), the key scan of
strategy 4, the deep exploration of strategy 5, then the fallback. -/
def dictAfter1 (env : Backends) (es : List (String × PyVal)) :
    Except String (Int × String) :=
  match h : lookup es "audio" with
  | some v => .ok (getDurationFromAudio env v)
  | none =>
    match lookup es "filename" with
    | some (.str p) => .ok (getDuration env p)
    | _ =>
      match strat4 es with
      | some r => r
      | none =>
        match explore env es with
        | some r => r
        | none => finalFallback env (.dict es)
termination_by (sizeOf es, 5)
decreasing_by
  · simp_wf
    apply Prod.Lex.left
    have := lookup_sizeOf_lt es "audio" v h
    omega
  · simp_wf
    apply Prod.Lex.right
    omega

/-- Strategy 5 (lines 152–168): walk the dict entries in order; recurse into a
nested dict, accepting its result only when `result[0] > 0`; interpret a
2-tuple as `(samples, rate)` inside a bare `try` whose exceptions (and type
mismatches) silently continue the loop. -/
def explore (env : Backends) : List (String × PyVal) → Option (Except String (Int × String))
  | [] => none
  | (_, v) :: rest =>
    match v with
    | .dict es2 =>
      let r := getDurationFromAudio env (.dict es2)
      if 0 < r.1 then some (.ok r) else explore env rest
    | .tuple [samples, rate] =>
      match samples with
      | .tensor s =>
        match bufDur s rate with
        | .ok d => some (.ok d)
        | .error _ => explore env rest
      | .ndarray s =>
        match bufDur s rate with
        | .ok d => some (.ok d)
        | .error _ => explore env rest
      | _ => explore env rest
    | _ => explore env rest
termination_by es => (sizeOf es, 0)
decreasing_by
  all_goals simp_wf
  all_goals apply Prod.Lex.left
  all_goals omega

end

/-- A concrete environment: no file exists, both optional libraries are
installed, every decode fails.  Used to evaluate the handlers on concrete
in-memory values (for which the decode backends are irrelevant). -/
def libEnv : Backends :=
  { fileExists := fun _ => false
    torchLoad := fun _ => .error "decode failed"
    librosaLoad := some fun _ => .error "decode failed"
    sfRead := none }

/-- Environment in which torchaudio decodes every file as 10 samples at 2 Hz. -/
def torchOkEnv : Backends :=
  { fileExists := fun _ => true
    torchLoad := fun _ => .ok (10, 2)
    librosaLoad := some fun _ => .error "decode failed"
    sfRead := some fun _ => .error "decode failed" }

/-- Environment in which torchaudio fails and librosa decodes every file as
14 samples at 2 Hz. -/
def librosaOkEnv : Backends :=
  { fileExists := fun _ => true
    torchLoad := fun _ => .error "decode failed"
    librosaLoad := some fun _ => .ok (14, 2)
    sfRead := some fun _ => .error "decode failed" }

/-- Environment in which torchaudio and librosa fail and soundfile decodes
every file as 18 samples at 2 Hz. -/
def sfOkEnv : Backends :=
  { fileExists := fun _ => true
    torchLoad := fun _ => .error "decode failed"
    librosaLoad := some fun _ => .error "decode failed"
    sfRead := some fun _ => .ok (18, 2) }

/-- Shape of every tuple a handler can return: either the error sentinel
`(0, "错误: " + msg)` or a success `(d, f"{d} 秒")`. -/
def Shaped (r : Int × String) : Prop :=
  (∃ m, r = (0, errHead ++ m)) ∨ (∃ d, r = (d, fmtSec d))

mutual

/-- Every integer occurring in the value is positive.  This is the
well-formedness assumption under which all computed durations are
non-negative: every sample rate the handler can pick out of the value is one
of its integers. -/
def posRates : PyVal → Bool
  | .int n => decide (0 < n)
  | .dict es => posRatesEntries es
  | .tuple es => posRatesList es
  | .pylist es => posRatesList es
  | _ => true

/-- Conjunction of `posRates` over dict entries. -/
def posRatesEntries : List (String × PyVal) → Bool
  | [] => true
  | (_, v) :: rest => posRates v && posRatesEntries rest

/-- Conjunction of `posRates` over element lists. -/
def posRatesList : List PyVal → Bool
  | [] => true
  | v :: rest => posRates v && posRatesList rest

end

/-- Every decode backend of the environment only reports positive sample
rates (true of any real audio decode). -/
def envPos (env : Backends) : Prop :=
  (∀ p n r, env.torchLoad p = .ok (n, r) → 0 < r) ∧
  (∀ f, env.librosaLoad = some f → ∀ p n r, f p = .ok (n, r) → 0 < r) ∧
  (∀ g, env.sfRead = some g → ∀ p n r, g p = .ok (n, r) → 0 < r)

theorem pyIntDiv_nonneg {n : Nat} {v : PyVal} {d : Int}
    (hv : posRates v = true) (h : pyIntDiv n v = .ok d) : 0 ≤ d := by
  cases v with
  | int r =>
    simp only [pyIntDiv] at h
    split at h
    · exact absurd h (by simp)
    · simp only [Except.ok.injEq] at h
      subst h
      simp only [posRates, decide_eq_true_eq] at hv
      exact Int.tdiv_nonneg (Int.ofNat_nonneg n) (le_of_lt hv)
  | tensor s => exact absurd h (by simp [pyIntDiv])
  | ndarray s => exact absurd h (by simp [pyIntDiv])
  | str s => exact absurd h (by simp [pyIntDiv])
  | dict es => exact absurd h (by simp [pyIntDiv])
  | tuple es => exact absurd h (by simp [pyIntDiv])
  | pylist es => exact absurd h (by simp [pyIntDiv])

theorem bufDur_ok {s : List Nat} {rate : PyVal} {r : Int × String}
    (h : bufDur s rate = .ok r) : ∃ d, r = (d, fmtSec d) := by
  unfold bufDur at h
  split at h
  · exact absurd h (by simp)
  · split at h
    · exact absurd h (by simp)
    · simp at h
      exact ⟨_, h.symm⟩

theorem bufDur_nonneg {s : List Nat} {rate : PyVal} {r : Int × String}
    (hrate : posRates rate = true) (h : bufDur s rate = .ok r) : 0 ≤ r.1 := by
  unfold bufDur at h
  split at h
  · exact absurd h (by simp)
  · split at h
    · exact absurd h (by simp)
    · simp at h
      rename_i hdiv
      have := pyIntDiv_nonneg hrate hdiv
      rw [← h]
      exact this

theorem posRates_lookup {es : List (String × PyVal)} {k : String} {v : PyVal}
    (h : posRatesEntries es = true) (hl : lookup es k = some v) : posRates v = true := by
  induction es with
  | nil => simp [lookup] at hl
  | cons kv rest ih =>
    obtain ⟨k2, v2⟩ := kv
    simp only [posRatesEntries, Bool.and_eq_true] at h
    simp only [lookup] at hl
    by_cases hk : k2 = k
    · simp [hk] at hl
      subst hl
      exact h.1
    · simp [hk] at hl
      exact ih h.2 hl

theorem strat1_ok {es : List (String × PyVal)} {r : Int × String}
    (h : strat1 es = some (.ok r)) : ∃ d, r = (d, fmtSec d) := by
  unfold strat1 at h
  split at h
  · split at h <;> simp at h <;> exact bufDur_ok h
  · exact absurd h (by simp)

theorem strat1_nonneg {es : List (String × PyVal)} {r : Int × String}
    (hes : posRatesEntries es = true) (h : strat1 es = some (.ok r)) : 0 ≤ r.1 := by
  unfold strat1 at h
  split at h
  · rename_i samples rate hs hr
    have hrate : posRates rate = true := posRates_lookup hes hr
    split at h <;> simp at h <;> exact bufDur_nonneg hrate h
  · exact absurd h (by simp)

theorem strat4Data_ok {es : List (String × PyVal)} {rate : PyVal} {ks : List String}
    {r : Int × String} (h : strat4Data es rate ks = some (.ok r)) :
    ∃ d, r = (d, fmtSec d) := by
  induction ks with
  | nil => simp [strat4Data] at h
  | cons k ks ih =>
    unfold strat4Data at h
    split at h
    · simp at h; exact bufDur_ok h
    · simp at h; exact bufDur_ok h
    · exact ih h

theorem strat4Data_nonneg {es : List (String × PyVal)} {rate : PyVal} {ks : List String}
    {r : Int × String} (hrate : posRates rate = true)
    (h : strat4Data es rate ks = some (.ok r)) : 0 ≤ r.1 := by
  induction ks with
  | nil => simp [strat4Data] at h
  | cons k ks ih =>
    unfold strat4Data at h
    split at h
    · simp at h; exact bufDur_nonneg hrate h
    · simp at h; exact bufDur_nonneg hrate h
    · exact ih h

theorem strat4Rate_ok {es : List (String × PyVal)} {data : PyVal} {ks : List String}
    {r : Int × String} (h : strat4Rate es data ks = some (.ok r)) :
    ∃ d, r = (d, fmtSec d) := by
  induction ks with
  | nil => simp [strat4Rate] at h
  | cons k ks ih =>
    unfold strat4Rate at h
    split at h
    · split at h
      · simp at h; exact bufDur_ok h
      · simp at h; exact bufDur_ok h
      · exact ih h
    · exact ih h

theorem strat4Rate_nonneg {es : List (String × PyVal)} {data : PyVal} {ks : List String}
    {r : Int × String} (hes : posRatesEntries es = true)
    (h : strat4Rate es data ks = some (.ok r)) : 0 ≤ r.1 := by
  induction ks with
  | nil => simp [strat4Rate] at h
  | cons k ks ih =>
    unfold strat4Rate at h
    split at h
    · rename_i rate hr
      have hrate : posRates rate = true := posRates_lookup hes hr
      split at h
      · simp at h; exact bufDur_nonneg hrate h
      · simp at h; exact bufDur_nonneg hrate h
      · exact ih h
    · exact ih h

theorem strat4Outer_ok {es : List (String × PyVal)} {ks : List String}
    {r : Int × String} (h : strat4Outer es ks = some (.ok r)) :
    ∃ d, r = (d, fmtSec d) := by
  induction ks with
  | nil => simp [strat4Outer] at h
  | cons k ks ih =>
    unfold strat4Outer at h
    split at h
    · split at h
      · split at h
        · rename_i r2 heq2
          simp at h
          subst h
          exact strat4Data_ok heq2
        · exact ih h
      · exact ih h
    · split at h
      · split at h
        · split at h
          · rename_i r2 heq2
            simp at h
            subst h
            exact strat4Rate_ok heq2
          · exact ih h
        · exact ih h
      · exact ih h

theorem strat4Outer_nonneg {es : List (String × PyVal)} {ks : List String}
    {r : Int × String} (hes : posRatesEntries es = true)
    (h : strat4Outer es ks = some (.ok r)) : 0 ≤ r.1 := by
  induction ks with
  | nil => simp [strat4Outer] at h
  | cons k ks ih =>
    unfold strat4Outer at h
    split at h
    · split at h
      · rename_i rate hl
        split at h
        · rename_i r2 heq2
          simp at h
          subst h
          exact strat4Data_nonneg (posRates_lookup hes hl) heq2
        · exact ih h
      · exact ih h
    · split at h
      · split at h
        · split at h
          · rename_i r2 heq2
            simp at h
            subst h
            exact strat4Rate_nonneg hes heq2
          · exact ih h
        · exact ih h
      · exact ih h

theorem strat4_ok {es : List (String × PyVal)} {r : Int × String}
    (h : strat4 es = some (.ok r)) : ∃ d, r = (d, fmtSec d) :=
  strat4Outer_ok h

theorem strat4_nonneg {es : List (String × PyVal)} {r : Int × String}
    (hes : posRatesEntries es = true) (h : strat4 es = some (.ok r)) : 0 ≤ r.1 :=
  strat4Outer_nonneg hes h

theorem getItem_posRates {a : PyVal} {k : String} {v : PyVal}
    (ha : posRates a = true) (h : getItem a k = .ok v) : posRates v = true := by
  cases a <;> simp [getItem] at h
  rename_i es
  rcases hl : lookup es k with _ | w <;> rw [hl] at h
  · simp at h
  · simp at h
    subst h
    exact posRates_lookup (by simpa [posRates] using ha) hl

theorem findRate_posRates {a : PyVal} {ks : List String} {v : PyVal}
    (ha : posRates a = true) (h : findRate a ks = .ok v) : posRates v = true := by
  induction ks with
  | nil =>
    simp [findRate] at h
    subst h
    simp [posRates]
  | cons k ks ih =>
    unfold findRate at h
    split at h
    · exact absurd h (by simp)
    · exact getItem_posRates ha h
    · exact ih h

theorem genericEstimate_ok {a : PyVal} {r : Int × String}
    (h : genericEstimate a = .ok r) : ∃ d, r = (d, fmtSec d) := by
  unfold genericEstimate at h
  split at h
  · exact absurd h (by simp)
  · split at h
    · exact absurd h (by simp)
    · split at h
      · exact absurd h (by simp)
      · split at h
        · exact absurd h (by simp)
        · split at h
          · exact absurd h (by simp)
          · simp at h
            exact ⟨_, h.symm⟩

theorem genericEstimate_nonneg {a : PyVal} {r : Int × String}
    (ha : posRates a = true) (h : genericEstimate a = .ok r) : 0 ≤ r.1 := by
  unfold genericEstimate at h
  split at h
  · exact absurd h (by simp)
  · split at h
    · exact absurd h (by simp)
    · rename_i rate hrate
      split at h
      · exact absurd h (by simp)
      · split at h
        · exact absurd h (by simp)
        · split at h
          · exact absurd h (by simp)
          · rename_i d hdiv
            simp at h
            rw [← h]
            exact pyIntDiv_nonneg (findRate_posRates ha hrate) hdiv

theorem finalFallback_ok {env : Backends} {a : PyVal} {r : Int × String}
    (h : finalFallback env a = .ok r) : ∃ d, r = (d, fmtSec d) := by
  unfold finalFallback at h
  split at h
  · split at h
    · simp at h
      rename_i heq
      subst h
      exact genericEstimate_ok heq
    · exact absurd h (by simp)
  · exact absurd h (by simp)

theorem finalFallback_nonneg {env : Backends} {a : PyVal} {r : Int × String}
    (ha : posRates a = true) (h : finalFallback env a = .ok r) : 0 ≤ r.1 := by
  unfold finalFallback at h
  split at h
  · split at h
    · simp at h
      rename_i heq
      subst h
      exact genericEstimate_nonneg ha heq
    · exact absurd h (by simp)
  · exact absurd h (by simp)

theorem tryLoadResult_eq {x : Except String (Nat × Int)} {r : Int × String}
    (h : tryLoadResult x = some r) :
    ∃ n rate, x = .ok (n, rate) ∧ rate ≠ 0 ∧
      r = (Int.tdiv (Int.ofNat n) rate, fmtSec (Int.tdiv (Int.ofNat n) rate)) := by
  unfold tryLoadResult at h
  split at h
  · exact absurd h (by simp)
  · rename_i n rate
    split at h
    · exact absurd h (by simp)
    · simp at h
      exact ⟨n, rate, rfl, by assumption, h.symm⟩

theorem getDurationCore_ok {env : Backends} {p : String} {r : Int × String}
    (h : getDurationCore env p = .ok r) : ∃ d, r = (d, fmtSec d) := by
  unfold getDurationCore at h
  split at h
  · split at h
    · simp at h
      rename_i heq
      obtain ⟨n, rate, _, _, hr⟩ := tryLoadResult_eq heq
      exact ⟨_, by rw [← h, hr]⟩
    · unfold librosaStep at h
      split at h
      · split at h
        · simp at h
          rename_i heq
          obtain ⟨n, rate, _, _, hr⟩ := tryLoadResult_eq heq
          exact ⟨_, by rw [← h, hr]⟩
        · unfold sfStep at h
          split at h
          · split at h
            · simp at h
              rename_i heq
              obtain ⟨n, rate, _, _, hr⟩ := tryLoadResult_eq heq
              exact ⟨_, by rw [← h, hr]⟩
            · exact absurd h (by simp)
          · exact absurd h (by simp)
      · unfold sfStep at h
        split at h
        · split at h
          · simp at h
            rename_i heq
            obtain ⟨n, rate, _, _, hr⟩ := tryLoadResult_eq heq
            exact ⟨_, by rw [← h, hr]⟩
          · exact absurd h (by simp)
        · exact absurd h (by simp)
  · exact absurd h (by simp)

/-- Result shape: `GetAudioDuration.get_duration` always returns either the error sentinel or
a `f"{d} 秒"` success tuple. -/
theorem getDuration_shaped (env : Backends) (p : String) : Shaped (getDuration env p) := by
  unfold getDuration
  split
  · rename_i r heq
    exact Or.inr (getDurationCore_ok heq)
  · exact Or.inl ⟨_, rfl⟩

/-- Under rate-positive backends, `GetAudioDuration.get_duration` never returns
a negative seconds value. -/
theorem getDuration_nonneg {env : Backends} (henv : envPos env) (p : String) :
    0 ≤ (getDuration env p).1 := by
  unfold getDuration
  split
  · rename_i r heq
    unfold getDurationCore at heq
    split at heq
    · split at heq
      · simp at heq
        rename_i htl
        obtain ⟨n, rate, hload, hne, hr⟩ := tryLoadResult_eq htl
        have hpos := henv.1 p n rate hload
        rw [← heq, hr]
        exact Int.tdiv_nonneg (Int.ofNat_nonneg n) (le_of_lt hpos)
      · unfold librosaStep at heq
        split at heq
        · rename_i f hf
          split at heq
          · simp at heq
            rename_i htl
            obtain ⟨n, rate, hload, hne, hr⟩ := tryLoadResult_eq htl
            have hpos := henv.2.1 f hf p n rate hload
            rw [← heq, hr]
            exact Int.tdiv_nonneg (Int.ofNat_nonneg n) (le_of_lt hpos)
          · unfold sfStep at heq
            split at heq
            · rename_i g hg
              split at heq
              · simp at heq
                rename_i htl
                obtain ⟨n, rate, hload, hne, hr⟩ := tryLoadResult_eq htl
                have hpos := henv.2.2 g hg p n rate hload
                rw [← heq, hr]
                exact Int.tdiv_nonneg (Int.ofNat_nonneg n) (le_of_lt hpos)
              · exact absurd heq (by simp)
            · exact absurd heq (by simp)
        · unfold sfStep at heq
          split at heq
          · rename_i g hg
            split at heq
            · simp at heq
              rename_i htl
              obtain ⟨n, rate, hload, hne, hr⟩ := tryLoadResult_eq htl
              have hpos := henv.2.2 g hg p n rate hload
              rw [← heq, hr]
              exact Int.tdiv_nonneg (Int.ofNat_nonneg n) (le_of_lt hpos)
            · exact absurd heq (by simp)
          · exact absurd heq (by simp)
    · exact absurd heq (by simp)
  · simp

/-- Invariant of the strategy-5 loop, parameterized by an induction hypothesis
for the recursive handler calls on structurally smaller values. -/
theorem explore_inv (env : Backends) (n : Nat)
    (IH : ∀ v : PyVal, sizeOf v ≤ n →
      Shaped (getDurationFromAudio env v) ∧
      (envPos env → posRates v = true → 0 ≤ (getDurationFromAudio env v).1)) :
    ∀ es : List (String × PyVal), sizeOf es ≤ n →
      ∀ r, explore env es = some (.ok r) →
        Shaped r ∧ (envPos env → posRatesEntries es = true → 0 ≤ r.1) := by
  intro es
  induction es with
  | nil =>
    intro _ r h
    simp [explore] at h
  | cons kv rest ih2 =>
    intro hsz r h
    obtain ⟨k, v⟩ := kv
    have hszrest : sizeOf rest ≤ n := by
      simp at hsz
      omega
    have hrest : posRatesEntries ((k, v) :: rest) = true →
        posRatesEntries rest = true := by
      intro hp
      simp [posRatesEntries] at hp
      exact hp.2
    cases v with
    | dict es2 =>
      simp only [explore] at h
      split at h
      · rename_i hpos
        simp at h
        have hv : sizeOf (PyVal.dict es2) ≤ n := by
          simp at hsz ⊢
          omega
        constructor
        · rw [← h]
          exact (IH _ hv).1
        · intro _ _
          rw [← h]
          exact le_of_lt hpos
      · exact (ih2 hszrest r h).imp id (fun g he hp => g he (hrest hp))
    | tuple l =>
      match l with
      | [] =>
        simp only [explore] at h
        exact (ih2 hszrest r h).imp id (fun g he hp => g he (hrest hp))
      | [x] =>
        simp only [explore] at h
        exact (ih2 hszrest r h).imp id (fun g he hp => g he (hrest hp))
      | samples :: rate :: y :: l2 =>
        simp only [explore] at h
        exact (ih2 hszrest r h).imp id (fun g he hp => g he (hrest hp))
      | [samples, rate] =>
        have hrate : posRatesEntries ((k, .tuple [samples, rate]) :: rest) = true →
            posRates rate = true := by
          intro hp
          simp [posRatesEntries, posRates, posRatesList] at hp
          cases samples <;> simp_all [posRates, posRatesList]
        cases samples with
        | tensor s =>
          simp only [explore] at h
          split at h
          · rename_i d heq
            simp at h
            subst h
            refine ⟨Or.inr (bufDur_ok heq), fun he hp => bufDur_nonneg (hrate hp) heq⟩
          · exact (ih2 hszrest r h).imp id (fun g he hp => g he (hrest hp))
        | ndarray s =>
          simp only [explore] at h
          split at h
          · rename_i d heq
            simp at h
            subst h
            refine ⟨Or.inr (bufDur_ok heq), fun he hp => bufDur_nonneg (hrate hp) heq⟩
          · exact (ih2 hszrest r h).imp id (fun g he hp => g he (hrest hp))
        | int m =>
          simp only [explore] at h
          exact (ih2 hszrest r h).imp id (fun g he hp => g he (hrest hp))
        | str s =>
          simp only [explore] at h
          exact (ih2 hszrest r h).imp id (fun g he hp => g he (hrest hp))
        | dict es2 =>
          simp only [explore] at h
          exact (ih2 hszrest r h).imp id (fun g he hp => g he (hrest hp))
        | tuple l2 =>
          simp only [explore] at h
          exact (ih2 hszrest r h).imp id (fun g he hp => g he (hrest hp))
        | pylist l2 =>
          simp only [explore] at h
          exact (ih2 hszrest r h).imp id (fun g he hp => g he (hrest hp))
    | tensor s =>
      simp only [explore] at h
      exact (ih2 hszrest r h).imp id (fun g he hp => g he (hrest hp))
    | ndarray s =>
      simp only [explore] at h
      exact (ih2 hszrest r h).imp id (fun g he hp => g he (hrest hp))
    | int m =>
      simp only [explore] at h
      exact (ih2 hszrest r h).imp id (fun g he hp => g he (hrest hp))
    | str s =>
      simp only [explore] at h
      exact (ih2 hszrest r h).imp id (fun g he hp => g he (hrest hp))
    | pylist l =>
      simp only [explore] at h
      exact (ih2 hszrest r h).imp id (fun g he hp => g he (hrest hp))

/-- Invariant of the dict cascade after strategy 1, parameterized by an
induction hypothesis for the recursive handler calls. -/
theorem dictAfter1_inv (env : Backends) (n : Nat)
    (IH : ∀ v : PyVal, sizeOf v ≤ n →
      Shaped (getDurationFromAudio env v) ∧
      (envPos env → posRates v = true → 0 ≤ (getDurationFromAudio env v).1))
    (es : List (String × PyVal)) (hsz : sizeOf es ≤ n) :
    ∀ r, dictAfter1 env es = .ok r →
      Shaped r ∧ (envPos env → posRatesEntries es = true → 0 ≤ r.1) := by
  intro r h
  unfold dictAfter1 at h
  split at h
  · rename_i v heq
    simp at h
    have hv : sizeOf v ≤ n := le_of_lt (lt_of_lt_of_le (lookup_sizeOf_lt es "audio" v heq) hsz)
    constructor
    · rw [← h]
      exact (IH v hv).1
    · intro he hp
      rw [← h]
      exact (IH v hv).2 he (posRates_lookup hp heq)
  · split at h
    · rename_i p heq
      simp at h
      constructor
      · rw [← h]
        exact getDuration_shaped env p
      · intro he _
        rw [← h]
        exact getDuration_nonneg he p
    · split at h
      · rename_i r2 heq
        subst h
        exact ⟨Or.inr (strat4_ok heq), fun he hp => strat4_nonneg hp heq⟩
      · split at h
        · rename_i r2 heq
          subst h
          exact explore_inv env n IH es hsz r heq
        · constructor
          · exact Or.inr (finalFallback_ok h)
          · intro he hp
            exact finalFallback_nonneg (by simpa [posRates] using hp) h

/-- Master invariant of `GetAudioDurationFromAudio.get_duration`, by strong
induction on the size of the value: every result is error-shaped or
success-shaped, and non-negative when all rates in sight are positive. -/
theorem fromAudio_master :
    ∀ (N : Nat) (env : Backends) (a : PyVal), sizeOf a ≤ N →
      Shaped (getDurationFromAudio env a) ∧
      (envPos env → posRates a = true → 0 ≤ (getDurationFromAudio env a).1) := by
  intro N
  induction N with
  | zero =>
    intro env a ha
    exact absurd ha (by cases a <;> simp)
  | succ n ih =>
    intro env a ha
    have hok : ∀ r, fromAudioCore env a = .ok r →
        Shaped r ∧ (envPos env → posRates a = true → 0 ≤ r.1) := by
      intro r hcore
      cases a with
      | dict es =>
        have hsz : sizeOf es ≤ n := by
          simp at ha
          omega
        simp only [fromAudioCore] at hcore
        split at hcore
        · rename_i r2 heq
          subst hcore
          constructor
          · exact Or.inr (strat1_ok heq)
          · intro he hp
            simp only [posRates] at hp
            exact strat1_nonneg hp heq
        · have := dictAfter1_inv env n (fun v hv => ih env v hv) es hsz r hcore
          exact this.imp id (fun g he hp => g he (by simpa [posRates] using hp))
      | tensor s =>
        simp only [fromAudioCore] at hcore
        exact ⟨Or.inr (finalFallback_ok hcore),
          fun he hp => finalFallback_nonneg hp hcore⟩
      | ndarray s =>
        simp only [fromAudioCore] at hcore
        exact ⟨Or.inr (finalFallback_ok hcore),
          fun he hp => finalFallback_nonneg hp hcore⟩
      | int m =>
        simp only [fromAudioCore] at hcore
        exact ⟨Or.inr (finalFallback_ok hcore),
          fun he hp => finalFallback_nonneg hp hcore⟩
      | str s =>
        simp only [fromAudioCore] at hcore
        exact ⟨Or.inr (finalFallback_ok hcore),
          fun he hp => finalFallback_nonneg hp hcore⟩
      | tuple l =>
        simp only [fromAudioCore] at hcore
        exact ⟨Or.inr (finalFallback_ok hcore),
          fun he hp => finalFallback_nonneg hp hcore⟩
      | pylist l =>
        simp only [fromAudioCore] at hcore
        exact ⟨Or.inr (finalFallback_ok hcore),
          fun he hp => finalFallback_nonneg hp hcore⟩
    unfold getDurationFromAudio
    split
    · rename_i r heq
      exact hok r heq
    · constructor
      · exact Or.inl ⟨_, rfl⟩
      · intro _ _
        simp

/-- Every handler result is the error sentinel or a success tuple
(specialization of the master invariant). -/
theorem fromAudio_shaped (env : Backends) (a : PyVal) :
    Shaped (getDurationFromAudio env a) :=
  (fromAudio_master (sizeOf a) env a le_rfl).1

/-- Under positive rates everywhere, the in-memory handler returns a
non-negative seconds value (specialization of the master invariant). -/
theorem fromAudio_nonneg {env : Backends} (he : envPos env) {a : PyVal}
    (hp : posRates a = true) : 0 ≤ (getDurationFromAudio env a).1 :=
  (fromAudio_master (sizeOf a) env a le_rfl).2 he hp

/-- C1: Both `GetAudioDuration.get_duration` and
`GetAudioDurationFromAudio.get_duration` never let an exception reach the
caller: for every input and every backend behavior, the result is a pair, and
every failure — including an internal division error from a zero or
non-numeric sample rate — is delivered as `(0, "错误: <message>")`; the only
other possible outputs are success pairs `(d, f"{d} 秒")`.  The last conjunct
exhibits the zero-rate division error being caught and converted. -/
theorem c1_handlers_never_raise (env : Backends) (a : PyVal) (p : String) :
    ((∃ m, getDurationFromAudio env a = (0, "错误: " ++ m)) ∨
      (∃ d, getDurationFromAudio env a = (d, toString d ++ " 秒"))) ∧
    ((∃ m, getDuration env p = (0, "错误: " ++ m)) ∨
      (∃ d, getDuration env p = (d, toString d ++ " 秒"))) ∧
    getDurationFromAudio env (.dict [("samples", .tensor [5]), ("sample_rate", .int 0)])
      = (0, "错误: division by zero") := by
  refine ⟨?_, ?_, ?_⟩
  · simpa [Shaped, errHead, fmtSec] using fromAudio_shaped env a
  · simpa [Shaped, errHead, fmtSec] using getDuration_shaped env p
  · simp [getDurationFromAudio, fromAudioCore, strat1, lookup, bufDur, lastDim,
      pyIntDiv, errHead]

/-- Truncated division by a positive rate is floor division. -/
theorem tdiv_eq_fdiv_of_pos (n : Nat) (r : Int) (hr : 0 < r) :
    Int.tdiv (Int.ofNat n) r = Int.fdiv (Int.ofNat n) r :=
  (Int.fdiv_eq_tdiv (by exact Int.ofNat_nonneg n) (le_of_lt hr)).symm

/-- C2: For an existing file, the backends are tried in the fixed order
torchaudio, librosa, soundfile; the first success short-circuits, returning
`(floor(sampleCount / sampleRate), f"{seconds} 秒")` — the equality in the first
conjunct holds for every value of the later backends, so they are not
consulted when torchaudio succeeds; the second and third conjuncts cover
librosa winning after torchaudio fails and soundfile winning after both
fail (or librosa being absent). -/
theorem c2_backend_cascade (env : Backends) (p : String) (n : Nat) (rate : Int)
    (hex : env.fileExists p = true) :
    (env.torchLoad p = .ok (n, rate) → 0 < rate →
      getDuration env p =
        (Int.tdiv (Int.ofNat n) rate, toString (Int.tdiv (Int.ofNat n) rate) ++ " 秒") ∧
      Int.tdiv (Int.ofNat n) rate = Int.fdiv (Int.ofNat n) rate) ∧
    (tryLoadResult (env.torchLoad p) = none →
      ∀ f, env.librosaLoad = some f → f p = .ok (n, rate) → 0 < rate →
        getDuration env p =
          (Int.tdiv (Int.ofNat n) rate, toString (Int.tdiv (Int.ofNat n) rate) ++ " 秒")) ∧
    (tryLoadResult (env.torchLoad p) = none →
      (env.librosaLoad = none ∨
        ∃ f, env.librosaLoad = some f ∧ tryLoadResult (f p) = none) →
      ∀ g, env.sfRead = some g → g p = .ok (n, rate) → 0 < rate →
        getDuration env p =
          (Int.tdiv (Int.ofNat n) rate, toString (Int.tdiv (Int.ofNat n) rate) ++ " 秒")) := by
  refine ⟨?_, ?_, ?_⟩
  · intro ht hr
    have hne : rate ≠ 0 := by omega
    have h1 : tryLoadResult (env.torchLoad p) =
        some (Int.tdiv (Int.ofNat n) rate, fmtSec (Int.tdiv (Int.ofNat n) rate)) := by
      rw [ht]
      simp [tryLoadResult, hne]
    constructor
    · simp [getDuration, getDurationCore, hex, h1, fmtSec]
    · exact tdiv_eq_fdiv_of_pos n rate hr
  · intro htl f hf hfp hr
    have hne : rate ≠ 0 := by omega
    have h2 : tryLoadResult (f p) =
        some (Int.tdiv (Int.ofNat n) rate, fmtSec (Int.tdiv (Int.ofNat n) rate)) := by
      rw [hfp]
      simp [tryLoadResult, hne]
    simp [getDuration, getDurationCore, librosaStep, hex, htl, hf, h2, fmtSec]
  · intro htl hlib g hg hgp hr
    have hne : rate ≠ 0 := by omega
    have h3 : tryLoadResult (g p) =
        some (Int.tdiv (Int.ofNat n) rate, fmtSec (Int.tdiv (Int.ofNat n) rate)) := by
      rw [hgp]
      simp [tryLoadResult, hne]
    rcases hlib with hnone | ⟨f, hf, hfl⟩
    · simp [getDuration, getDurationCore, librosaStep, sfStep, hex, htl, hnone,
        hg, h3, fmtSec]
    · simp [getDuration, getDurationCore, librosaStep, sfStep, hex, htl, hf, hfl,
        hg, h3, fmtSec]

/-- Witness for C2 at three concrete environments, one per winning backend:
torchaudio decodes 10 samples at 2 Hz (5 s); torchaudio fails and librosa
decodes 14 samples at 2 Hz (7 s); both fail and soundfile decodes 18 samples
at 2 Hz (9 s). -/
theorem c2_backend_cascade_witness :
    getDuration torchOkEnv "a.wav" = (5, "5 秒") ∧
    getDuration librosaOkEnv "a.wav" = (7, "7 秒") ∧
    getDuration sfOkEnv "a.wav" = (9, "9 秒") := by
  refine ⟨?_, ?_, ?_⟩
  · have := ((c2_backend_cascade torchOkEnv "a.wav" 10 2 rfl).1 rfl (by decide)).1
    simpa using this
  · have := (c2_backend_cascade librosaOkEnv "a.wav" 14 2 rfl).2.1 rfl
      (fun _ => .ok (14, 2)) rfl rfl (by decide)
    simpa using this
  · have := (c2_backend_cascade sfOkEnv "a.wav" 18 2 rfl).2.2 rfl
      (Or.inr ⟨fun _ => .error "decode failed", rfl, rfl⟩)
      (fun _ => .ok (18, 2)) rfl rfl (by decide)
    simpa using this

/-- C3: For every mapping containing both `samples` (a buffer with `nn` samples
on its last axis) and `sample_rate` (a positive integer `r`),
`GetAudioDurationFromAudio.get_duration` returns `floor(nn / r)` seconds
(`Nat` division is floor division); in particular an empty buffer (`nn = 0`)
yields `(0, "0 秒")` without raising. -/
theorem c3_samples_sample_rate (env : Backends) (es : List (String × PyVal))
    (sh : List Nat) (nn r : Nat)
    (hs : lookup es "samples" = some (.tensor sh))
    (hlast : sh.getLast? = some nn)
    (hr : lookup es "sample_rate" = some (.int (Int.ofNat r)))
    (hpos : 0 < r) :
    getDurationFromAudio env (.dict es) =
      (Int.ofNat (nn / r), toString (Int.ofNat (nn / r)) ++ " 秒") ∧
    (nn = 0 → getDurationFromAudio env (.dict es) = (0, "0 秒")) := by
  have hne : Int.ofNat r ≠ 0 := by
    simp
    omega
  have hdiv : Int.tdiv (Int.ofNat nn) (Int.ofNat r) = Int.ofNat (nn / r) :=
    (Int.ofNat_tdiv nn r).symm
  have hb : bufDur sh (.int (Int.ofNat r)) =
      .ok (Int.ofNat (nn / r), fmtSec (Int.ofNat (nn / r))) := by
    simp only [bufDur, lastDim, hlast, pyIntDiv]
    rw [if_neg hne, hdiv]
  have hs1 : strat1 es =
      some (.ok (Int.ofNat (nn / r), fmtSec (Int.ofNat (nn / r)))) := by
    simp only [strat1, hs, hr]
    rw [hb]
  have hmain : getDurationFromAudio env (.dict es) =
      (Int.ofNat (nn / r), fmtSec (Int.ofNat (nn / r))) := by
    simp [getDurationFromAudio, fromAudioCore, hs1]
  constructor
  · rw [hmain]
    rfl
  · intro h0
    subst h0
    rw [hmain]
    simp [fmtSec]
    rfl

/-- Witness for C3: `{samples: tensor of shape (6,), sample_rate: 2}` yields
3 seconds, and the zero-length buffer `{samples: tensor of shape (0,),
sample_rate: 2}` yields `(0, "0 秒")`. -/
theorem c3_samples_sample_rate_witness :
    getDurationFromAudio libEnv
      (.dict [("samples", .tensor [6]), ("sample_rate", .int 2)]) = (3, "3 秒") ∧
    getDurationFromAudio libEnv
      (.dict [("samples", .tensor [0]), ("sample_rate", .int 2)]) = (0, "0 秒") := by
  constructor
  · have := (c3_samples_sample_rate libEnv
      [("samples", .tensor [6]), ("sample_rate", .int 2)] [6] 6 2
      rfl rfl rfl (by decide)).1
    simpa using this
  · exact (c3_samples_sample_rate libEnv
      [("samples", .tensor [0]), ("sample_rate", .int 2)] [0] 0 2
      rfl rfl rfl (by decide)).2 rfl

/-- C9: For every path that does not exist, `GetAudioDuration.get_duration`
returns exactly `(0, "错误: 文件不存在: <path>")` — a message containing the
path — and the result is the same whatever the decode backends would do, i.e.
no backend is consulted. -/
theorem c9_missing_file (env : Backends) (p : String)
    (h : env.fileExists p = false) :
    getDuration env p = (0, "错误: 文件不存在: " ++ p) ∧
    (∃ pre, "错误: 文件不存在: " ++ p = pre ++ p) ∧
    (∀ tl ll sf,
      getDuration { fileExists := env.fileExists, torchLoad := tl,
                    librosaLoad := ll, sfRead := sf } p =
        (0, "错误: 文件不存在: " ++ p)) := by
  refine ⟨?_, ⟨"错误: 文件不存在: ", rfl⟩, ?_⟩
  · simp [getDuration, getDurationCore, h, errHead]
    rw [← String.append_assoc]
    rfl
  · intro tl ll sf
    simp [getDuration, getDurationCore, h, errHead]
    rw [← String.append_assoc]
    rfl

/-- Witness for C9 at the concrete environment with no files. -/
theorem c9_missing_file_witness :
    libEnv.fileExists "missing.wav" = false ∧
    getDuration libEnv "missing.wav" = (0, "错误: 文件不存在: missing.wav") := by
  refine ⟨rfl, ?_⟩
  exact (c9_missing_file libEnv "missing.wav" rfl).1

/-- Test `isinstance(x, torch.Tensor) or isinstance(x, np.ndarray)` — the only types
the dict strategies accept as a sample buffer. -/
def isBuffer : PyVal → Bool
  | .tensor _ => true
  | .ndarray _ => true
  | _ => false

/-- C8: For every mapping with a string `filename` and no matching earlier
strategy (not both `samples` and `sample_rate` present, no `audio` key), the
in-memory handler returns exactly what `GetAudioDuration.get_duration` returns
on that path. -/
theorem c8_filename_delegates (env : Backends) (es : List (String × PyVal)) (p : String)
    (h1 : ¬((lookup es "samples").isSome ∧ (lookup es "sample_rate").isSome))
    (h2 : lookup es "audio" = none)
    (h3 : lookup es "filename" = some (.str p)) :
    getDurationFromAudio env (.dict es) = getDuration env p := by
  have hs1 : strat1 es = none := by
    unfold strat1
    rcases hA : lookup es "samples" with _ | v
    · rfl
    · rcases hB : lookup es "sample_rate" with _ | w
      · cases v <;> rfl
      · exact absurd ⟨by rw [hA]; rfl, by rw [hB]; rfl⟩ h1
  have hcore : fromAudioCore env (.dict es) = .ok (getDuration env p) := by
    simp only [fromAudioCore, hs1]
    unfold dictAfter1
    split
    · rename_i v heq
      rw [h2] at heq
      exact absurd heq (by simp)
    · rw [h3]
  simp [getDurationFromAudio, hcore]

/-- Witness for C8: `{filename: "a.wav"}` delegates to the path handler. -/
theorem c8_filename_delegates_witness :
    getDurationFromAudio libEnv (.dict [("filename", .str "a.wav")]) =
      getDuration libEnv "a.wav" :=
  c8_filename_delegates libEnv [("filename", .str "a.wav")] "a.wav"
    (by simp [lookup]) rfl rfl

/-- C10: When both `samples` and `sample_rate` are present but the samples
value is neither a `torch.Tensor` nor a `numpy.ndarray` (e.g. a plain list),
strategy 1 is skipped without error and resolution continues with the
strategies after it (first conjunct: the result is exactly the post-strategy-1
cascade result); for the minimal such mapping the later strategies do not
coerce the list and the handler ends in the error result (second conjunct). -/
theorem c10_strategy1_type_guard (env : Backends) (es : List (String × PyVal))
    (v w : PyVal)
    (hs : lookup es "samples" = some v)
    (hr : lookup es "sample_rate" = some w)
    (hb : isBuffer v = false) :
    getDurationFromAudio env (.dict es) =
      (match dictAfter1 env es with
       | .ok r => r
       | .error m => (0, errHead ++ m)) ∧
    (∀ l rr, getDurationFromAudio env
        (.dict [("samples", .pylist l), ("sample_rate", .int rr)]) =
      (0, "错误: 无法解析音频格式: dict, 内容: [samples, sample_rate]")) := by
  constructor
  · have hs1 : strat1 es = none := by
      unfold strat1
      rw [hs, hr]
      cases v <;> simp [isBuffer] at hb ⊢
    simp [getDurationFromAudio, fromAudioCore, hs1]
  · intro l rr
    have hfa : finalFallback env
        (.dict [("samples", .pylist l), ("sample_rate", .int rr)]) =
        .error "无法解析音频格式: dict, 内容: [samples, sample_rate]" := by
      unfold finalFallback
      split
      · simp [genericEstimate, toArrayShape, firstArray, unparseable, pyType, pyKeys]
        rfl
      · simp [unparseable, pyType, pyKeys]
        rfl
    simp [getDurationFromAudio, fromAudioCore, strat1, lookup, dictAfter1, strat4,
      strat4Outer, explore, hfa, errHead]

/-- Witness for C10: a plain-list samples value under both keys is skipped by
strategy 1 and the minimal mapping ends in the error result. -/
theorem c10_strategy1_type_guard_witness :
    isBuffer (.pylist []) = false ∧
    getDurationFromAudio libEnv
        (.dict [("samples", .pylist []), ("sample_rate", .int 44100)]) =
      (0, "错误: 无法解析音频格式: dict, 内容: [samples, sample_rate]") :=
  ⟨rfl,
    (c10_strategy1_type_guard libEnv
      [("samples", .pylist []), ("sample_rate", .int 44100)]
      (.pylist []) (.int 44100) rfl rfl rfl).2 [] 44100⟩

/-- C5 counterexample: the mapping `{samples: tensor of shape (5,),
sample_rate: -2}` makes `GetAudioDurationFromAudio.get_duration` return
`(-2, "-2 秒")` — `int(5 / -2) = -2` — so the claimed non-negativity for
*every* input (explicitly including negative rate values) is false. -/
theorem c5_counterexample_negative_rate :
    getDurationFromAudio libEnv
        (.dict [("samples", .tensor [5]), ("sample_rate", .int (-2))]) =
      (-2, "-2 秒") ∧
    (getDurationFromAudio libEnv
        (.dict [("samples", .tensor [5]), ("sample_rate", .int (-2))])).1 < 0 := by
  have h : getDurationFromAudio libEnv
      (.dict [("samples", .tensor [5]), ("sample_rate", .int (-2))]) =
      (-2, "-2 秒") := by
    simp only [getDurationFromAudio, fromAudioCore, strat1, lookup, bufDur, lastDim,
      pyIntDiv, fmtSec]
    decide
  refine ⟨h, ?_⟩
  rw [h]
  decide

/-- C5 (amended): the seconds component of either handler is obtained by
truncation toward zero, never rounding (7 samples at 2 Hz give 3, not 4), and
it is non-negative whenever every rate in sight is positive: all integers in
the structured value positive and all backend rates positive.  A mapping
carrying a negative rate can return negative seconds (see the
counterexample). -/
theorem c5_truncation_and_conditional_nonneg (env : Backends) (a : PyVal)
    (p : String) (he : envPos env) (hp : posRates a = true) :
    0 ≤ (getDurationFromAudio env a).1 ∧
    0 ≤ (getDuration env p).1 ∧
    (getDurationFromAudio env
        (.dict [("samples", .tensor [7]), ("sample_rate", .int 2)])).1 = 3 := by
  refine ⟨fromAudio_nonneg he hp, getDuration_nonneg he p, ?_⟩
  simp [getDurationFromAudio, fromAudioCore, strat1, lookup, bufDur, lastDim,
    pyIntDiv, fmtSec]
  decide

/-- Witness for the amended C5 at a concrete environment and value. -/
theorem c5_truncation_and_conditional_nonneg_witness :
    posRates (.dict [("samples", .tensor [4]), ("sample_rate", .int 2)]) = true ∧
    0 ≤ (getDurationFromAudio libEnv
        (.dict [("samples", .tensor [4]), ("sample_rate", .int 2)])).1 ∧
    0 ≤ (getDuration libEnv "a.wav").1 := by
  have henv : envPos libEnv := by
    refine ⟨?_, ?_, ?_⟩
    · intro p n r h
      simp [libEnv] at h
    · intro f hf p n r h
      simp [libEnv] at hf
      rw [← hf] at h
      simp at h
    · intro g hg
      simp [libEnv] at hg
  have hp : posRates
      (.dict [("samples", .tensor [4]), ("sample_rate", .int 2)]) = true := by
    simp [posRates, posRatesEntries]
  have := c5_truncation_and_conditional_nonneg libEnv
    (.dict [("samples", .tensor [4]), ("sample_rate", .int 2)]) "a.wav" henv hp
  exact ⟨hp, this.1, this.2.1⟩

/-- C4 counterexample: in
`{samples: tensor (0,), sample_rate: 1, waveform: tensor (100,), rate: 10}`
strategy 1 computes `seconds = 0` and the handler returns `(0, "0 秒")`
immediately, although the later key-scan strategy resolves the same mapping
(second conjunct, after removing the two strategy-1 keys) to 10 seconds — so
a sub-strategy result of `seconds <= 0` is *not* generally treated as
unresolved with the search continuing. -/
theorem c4_counterexample_zero_not_continued :
    getDurationFromAudio libEnv
        (.dict [("samples", .tensor [0]), ("sample_rate", .int 1),
                ("waveform", .tensor [100]), ("rate", .int 10)]) = (0, "0 秒") ∧
    getDurationFromAudio libEnv
        (.dict [("waveform", .tensor [100]), ("rate", .int 10)]) = (10, "10 秒") := by
  constructor
  · simp only [getDurationFromAudio, fromAudioCore, strat1, lookup, bufDur, lastDim,
      pyIntDiv, fmtSec]
    decide
  · simp only [getDurationFromAudio, fromAudioCore, strat1, lookup, dictAfter1,
      strat4, strat4Outer, strat4Data, bufDur, lastDim, pyIntDiv, fmtSec]
    decide

/-- C4 (amended): only the deep-exploration strategy (strategy 5) treats a
nested-mapping sub-result with `seconds <= 0` as unresolved and continues with
the next entry (first conjunct); every other strategy returns its computed
result unconditionally — in particular the direct samples/sample_rate
extraction returns `(0, "0 秒")` for a zero-length buffer without consulting
any later strategy (second conjunct, for an arbitrary surrounding mapping). -/
theorem c4_only_exploration_skips_nonpositive (env : Backends) (k : String)
    (es2 rest es : List (String × PyVal)) (sh : List Nat) (r : Int) :
    ((getDurationFromAudio env (.dict es2)).1 ≤ 0 →
      explore env ((k, .dict es2) :: rest) = explore env rest) ∧
    (lookup es "samples" = some (.tensor sh) → sh.getLast? = some 0 →
      lookup es "sample_rate" = some (.int r) → r ≠ 0 →
      getDurationFromAudio env (.dict es) = (0, "0 秒")) := by
  constructor
  · intro hle
    simp only [explore]
    rw [if_neg (by omega : ¬(0 < (getDurationFromAudio env (.dict es2)).1))]
  · intro hs hlast hr hrne
    have hb : bufDur sh (.int r) = .ok (0, fmtSec 0) := by
      simp only [bufDur, lastDim, hlast, pyIntDiv]
      rw [if_neg hrne]
      simp
    have hs1 : strat1 es = some (.ok (0, fmtSec 0)) := by
      simp only [strat1, hs, hr]
      rw [hb]
    simp [getDurationFromAudio, fromAudioCore, hs1]
    rfl

/-- Witness for the amended C4: a nested empty mapping resolves to seconds 0,
so exploration skips it and continues to the next entry, where the 2-tuple
`(tensor (30,), 10)` yields 3 seconds; and a zero-length samples buffer
returns `(0, "0 秒")` directly even though a `waveform`/`rate` pair is
present. -/
theorem c4_only_exploration_skips_nonpositive_witness :
    (getDurationFromAudio libEnv (.dict [])).1 ≤ 0 ∧
    explore libEnv
        [("x", .dict []), ("y", .tuple [.tensor [30], .int 10])] =
      explore libEnv [("y", .tuple [.tensor [30], .int 10])] ∧
    getDurationFromAudio libEnv
        (.dict [("samples", .tensor [0]), ("sample_rate", .int 44100),
                ("waveform", .tensor [200]), ("sr", .int 10)]) = (0, "0 秒") := by
  have h0 : (getDurationFromAudio libEnv (.dict [])).1 ≤ 0 := by
    simp only [getDurationFromAudio, fromAudioCore, strat1, lookup, dictAfter1,
      strat4, strat4Outer, explore, finalFallback, genericEstimate, toArrayShape,
      firstArray, unparseable, pyType, pyKeys, libEnv, errHead]
    decide
  refine ⟨h0, ?_, ?_⟩
  · exact (c4_only_exploration_skips_nonpositive libEnv "x" []
      [("y", .tuple [.tensor [30], .int 10])] [] [] 1).1 h0
  · exact (c4_only_exploration_skips_nonpositive libEnv "x" [] []
      [("samples", .tensor [0]), ("sample_rate", .int 44100),
       ("waveform", .tensor [200]), ("sr", .int 10)] [0] 44100).2
      rfl rfl rfl (by decide)

/-- C6 counterexample: the mapping
`{pad: tensor (100,), sample_rate: 10, data: tensor (50,)}` contains a rate
key (`sample_rate`) and a data key (`data`) from the claimed lists, yet the
key scan of strategy 4 does not resolve it — the outer scan only looks at
`samplerate`, `rate`, `sr`, `audio_data`, `waveform` — and the librosa
fallback instead pairs `sample_rate` with the *first* tensor in the dict
(`pad`, 100 samples), returning 10 seconds, not `floor(50/10) = 5`. -/
theorem c6_counterexample_key_scan :
    getDurationFromAudio libEnv
        (.dict [("pad", .tensor [100]), ("sample_rate", .int 10),
                ("data", .tensor [50])]) = (10, "10 秒") ∧
    (getDurationFromAudio libEnv
        (.dict [("pad", .tensor [100]), ("sample_rate", .int 10),
                ("data", .tensor [50])])).1 ≠ 5 := by
  have h : getDurationFromAudio libEnv
      (.dict [("pad", .tensor [100]), ("sample_rate", .int 10),
              ("data", .tensor [50])]) = (10, "10 秒") := by
    simp only [getDurationFromAudio, fromAudioCore, strat1, lookup, dictAfter1,
      strat4, strat4Outer, strat4Data, strat4Rate, explore, finalFallback,
      genericEstimate, toArrayShape, firstArray, findRate, hasKey, getItem,
      collapse, lastDim, pyIntDiv, fmtSec, libEnv]
    decide
  refine ⟨h, ?_⟩
  rw [h]
  decide

/-- C6 (amended): the strategy-4 scan iterates over the keys `samplerate`,
`rate`, `sr`, `audio_data`, `waveform` only, so a mapping containing none of
them is never resolved by the scan even if it has `sample_rate` and `data`
keys (first conjunct); a rate key among `samplerate`/`rate`/`sr` pairs with
the first buffer under `data`/`samples`/`audio`/`waveform` (second conjunct,
end to end through the handler); `sample_rate` acts as a scanned rate key only
for a buffer under the data keys `audio_data`/`waveform` (third conjunct). -/
theorem c6_key_scan_amended (env : Backends) (es : List (String × PyVal))
    (sh : List Nat) (nn : Nat) (r : Int) :
    (lookup es "samplerate" = none → lookup es "rate" = none →
     lookup es "sr" = none → lookup es "audio_data" = none →
     lookup es "waveform" = none → strat4 es = none) ∧
    (lookup es "rate" = some (.int r) → lookup es "samplerate" = none →
     lookup es "data" = none → lookup es "samples" = some (.tensor sh) →
     sh.getLast? = some nn → r ≠ 0 →
     lookup es "sample_rate" = none → lookup es "audio" = none →
     lookup es "filename" = none →
     getDurationFromAudio env (.dict es) =
       (Int.tdiv (Int.ofNat nn) r, fmtSec (Int.tdiv (Int.ofNat nn) r))) ∧
    (lookup es "audio_data" = some (.tensor sh) → lookup es "samplerate" = none →
     lookup es "rate" = none → lookup es "sr" = none →
     lookup es "sample_rate" = some (.int r) → sh.getLast? = some nn → r ≠ 0 →
     strat4 es =
       some (.ok (Int.tdiv (Int.ofNat nn) r, fmtSec (Int.tdiv (Int.ofNat nn) r)))) := by
  refine ⟨?_, ?_, ?_⟩
  · intro h1 h2 h3 h4 h5
    simp [strat4, strat4Outer, h1, h2, h3, h4, h5]
  · intro hrk hsrk hdata hsamp hlast hrne hsr2 haud hfn
    have hb : bufDur sh (.int r) =
        .ok (Int.tdiv (Int.ofNat nn) r, fmtSec (Int.tdiv (Int.ofNat nn) r)) := by
      simp only [bufDur, lastDim, hlast, pyIntDiv]
      rw [if_neg hrne]
    have h4 : strat4 es =
        some (.ok (Int.tdiv (Int.ofNat nn) r, fmtSec (Int.tdiv (Int.ofNat nn) r))) := by
      simp only [strat4, strat4Outer, hsrk, hrk, strat4Data, hdata, hsamp]
      simp
      rw [hb]
      rfl
    have hs1 : strat1 es = none := by
      simp [strat1, hsamp, hsr2]
    have hcore : fromAudioCore env (.dict es) =
        .ok (Int.tdiv (Int.ofNat nn) r, fmtSec (Int.tdiv (Int.ofNat nn) r)) := by
      simp only [fromAudioCore, hs1]
      unfold dictAfter1
      split
      · rename_i v heq
        rw [haud] at heq
        exact absurd heq (by simp)
      · rw [hfn, h4]
    simp [getDurationFromAudio, hcore]
  · intro hdk hsrk hrk hsk hsr2 hlast hrne
    have hb : bufDur sh (.int r) =
        .ok (Int.tdiv (Int.ofNat nn) r, fmtSec (Int.tdiv (Int.ofNat nn) r)) := by
      simp only [bufDur, lastDim, hlast, pyIntDiv]
      rw [if_neg hrne]
    simp only [strat4, strat4Outer, hsrk, hrk, hsk, hdk, strat4Rate, hsr2]
    simp
    rw [hb]
    rfl

/-- Witness for the amended C6: a mapping with none of the five scanned keys
is not resolved by strategy 4; `{rate: 10, samples: tensor (50,)}` resolves to
5 seconds through the handler; `{audio_data: tensor (50,), sample_rate: 10}`
is resolved by the scan itself. -/
theorem c6_key_scan_amended_witness :
    strat4 [("sample_rate", .int 10), ("data", .tensor [50])] = none ∧
    getDurationFromAudio libEnv
        (.dict [("rate", .int 10), ("samples", .tensor [50])]) = (5, "5 秒") ∧
    strat4 [("audio_data", .tensor [50]), ("sample_rate", .int 10)] =
      some (.ok (5, "5 秒")) := by
  refine ⟨?_, ?_, ?_⟩
  · exact (c6_key_scan_amended libEnv
      [("sample_rate", .int 10), ("data", .tensor [50])] [] 0 1).1
      rfl rfl rfl rfl rfl
  · exact (c6_key_scan_amended libEnv
      [("rate", .int 10), ("samples", .tensor [50])] [50] 50 10).2.1
      rfl rfl rfl rfl rfl (by decide) rfl rfl rfl
  · exact (c6_key_scan_amended libEnv
      [("audio_data", .tensor [50]), ("sample_rate", .int 10)] [50] 50 10).2.2
      rfl rfl rfl rfl rfl rfl (by decide)

/-- C7: evaluating the code at the failing input.  For a raw `torch.Tensor`
passed directly, the rate scan of the librosa fallback evaluates
`"sample_rate" in audio` on the tensor, which raises RuntimeError
(`Tensor.__contains__` rejects strings), so the handler returns the error
tuple instead of the estimated duration `(1, "1 秒")` the spec describes;
a raw `numpy.ndarray` of the same shape (whose `in` collapses to `False`)
does reach the default 44100 rate and yields `(1, "1 秒")`. -/
theorem c7_raw_tensor_code_bug :
    getDurationFromAudio libEnv (.tensor [44100]) =
      (0, "错误: 无法解析音频格式: Tensor, 内容: tensor") ∧
    getDurationFromAudio libEnv (.tensor [44100]) ≠ (1, "1 秒") ∧
    getDurationFromAudio libEnv (.ndarray [44100]) = (1, "1 秒") := by
  have h : getDurationFromAudio libEnv (.tensor [44100]) =
      (0, "错误: 无法解析音频格式: Tensor, 内容: tensor") := by
    simp only [getDurationFromAudio, fromAudioCore, finalFallback, genericEstimate,
      toArrayShape, findRate, hasKey, unparseable, pyType, pyStr, libEnv, errHead]
    decide
  refine ⟨h, ?_, ?_⟩
  · rw [h]
    decide
  · simp only [getDurationFromAudio, fromAudioCore, finalFallback, genericEstimate,
      toArrayShape, findRate, hasKey, collapse, lastDim, pyIntDiv, fmtSec, libEnv]
    decide
